import Mathlib

/-!
Verification of the echo messaging core: a shallow embedding of the
Agraphon ratchet (crypto-agraphon), the session layer padding, and the
SessionManager orchestration, with the external cryptographic primitives
(ML-KEM, AES-CTR, AES-SIV, HKDF, bincode) modelled as abstract schemes
carrying exactly the interface contracts the specification assigns them.
Byte strings are lists of naturals; fallible Rust functions return Option;
functions that panic on broken invariants return Option with none for the
panic. Randomness drawn from the process CSPRNG is passed in explicitly.
-/

set_option maxHeartbeats 1000000

/-- Byte strings, as in the Rust slices the source operates on. -/
abbrev Bytes := List Nat

/-- Role of a party (types.rs): Initiator sent the first announcement. -/
inductive Role where
  | initiator
  | responder
deriving DecidableEq, Repr

/-- Role.opposite from types.rs: the sender's role seen from the receiver. -/
def Role.opposite : Role → Role
  | .initiator => .responder
  | .responder => .initiator

/-- KeySource from types.rs: the secret key for decrypting a response is
either an owned ephemeral or the externally-held static key. -/
inductive KeySource where
  | ephemeral (sk : Bytes)
  | static
deriving DecidableEq, Repr

/-- Output record of MessageRootKdf as consumed by agraphon.rs. -/
structure MsgRootOut where
  cipher_key : Bytes
  cipher_nonce : Bytes
  integrity_seed : Bytes
deriving DecidableEq, Repr

/-- Output record of MessageIntegrityKdf as consumed by agraphon.rs. -/
structure IntegrityOut where
  mk_next : Bytes
  integrity_key : Bytes
  seeker_next : Bytes
deriving DecidableEq, Repr

/-- Output record of AnnouncementRootKdf as consumed by announcement.rs. -/
structure AnnRootOut where
  cipher_key : Bytes
  cipher_nonce : Bytes
  auth_pre_key : Bytes
  k_next : Bytes
  seeker_next : Bytes
  id : Bytes
deriving DecidableEq, Repr

/-- Abstract model of the external cryptographic primitives used by the
crypto-agraphon crate: ML-KEM-768 (crypto-kem), AES-256-CTR (crypto-cipher),
AES-256-SIV (crypto-aead) and the labeled HKDF derivations.  The spec places
these outside the core ("interfaces only"); the fields state exactly the
contracts the wrappers document: fixed sizes, stream-cipher length
preservation and invertibility, KEM encapsulate/decapsulate agreement, and
AEAD round-trip.  KDFs are arbitrary deterministic functions. -/
structure Prim where
  pkSize : Nat
  ctSize : Nat
  kemGen : Bytes → Bytes × Bytes
  kemEncap : Bytes → Bytes → Bytes × Bytes
  kemDecap : Bytes → Bytes → Bytes
  kemGenPkLen : ∀ r, (kemGen r).2.length = pkSize
  kemEncapCtLen : ∀ pk r, (kemEncap pk r).1.length = ctSize
  kemCorrect : ∀ r r',
    kemDecap (kemGen r).1 (kemEncap (kemGen r).2 r').1 = (kemEncap (kemGen r).2 r').2
  cipherEncrypt : Bytes → Bytes → Bytes → Bytes
  cipherDecrypt : Bytes → Bytes → Bytes → Bytes
  cipherLen : ∀ k n m, (cipherEncrypt k n m).length = m.length
  cipherRoundtrip : ∀ k n m, cipherDecrypt k n (cipherEncrypt k n m) = m
  aeadEncrypt : Bytes → Bytes → Bytes → Bytes → Bytes
  aeadDecrypt : Bytes → Bytes → Bytes → Bytes → Option Bytes
  aeadRoundtrip : ∀ k n m a, aeadDecrypt k n (aeadEncrypt k n m a) a = some m
  staticKdf : Bytes → Bytes × Bytes
  msgRootKdf : Bytes → Bytes → Bytes → Bytes → Role → MsgRootOut
  msgIntegrityKdf : Bytes → Bytes → Bytes → IntegrityOut
  msgIntegrityKeyLen : ∀ s pk p, (msgIntegrityKdf s pk p).integrity_key.length = 32
  seekerKdf : Bytes → Bytes → Bytes
  annRootKdf : Bytes → Bytes → Bytes → Bytes → AnnRootOut
  annAuthKdf : Bytes → Bytes → Bytes

/-- HistoryItemSelf from history.rs: one of our sent messages. -/
structure HistoryItemSelf where
  local_id : Nat
  sk_next : KeySource
  mk_next : Bytes
  seeker_next : Bytes
deriving DecidableEq, Repr

/-- HistoryItemPeer from history.rs: the peer's most recent message state. -/
structure HistoryItemPeer where
  our_parent_id : Nat
  pk_next : Bytes
  mk_next : Bytes
  seeker_next : Bytes
deriving DecidableEq, Repr

/-- HistoryItemSelf::initial: the virtual message with id 0 derived from our
static public key through StaticKdf. -/
def HistoryItemSelf.initial (P : Prim) (static_pk_self : Bytes) : HistoryItemSelf :=
  { local_id := 0
    sk_next := .static
    mk_next := (P.staticKdf static_pk_self).1
    seeker_next := (P.staticKdf static_pk_self).2 }

/-- HistoryItemPeer::initial: the peer's initial state derived from their
static public key through StaticKdf. -/
def HistoryItemPeer.initial (P : Prim) (static_pk_peer : Bytes) : HistoryItemPeer :=
  { our_parent_id := 0
    pk_next := static_pk_peer
    mk_next := (P.staticKdf static_pk_peer).1
    seeker_next := (P.staticKdf static_pk_peer).2 }

/-- Finalized incoming announcement (announcement.rs). -/
structure IncomingAnnouncement where
  pk_peer : Bytes
  pk_next : Bytes
  k_next : Bytes
  seeker_next : Bytes
  id : Bytes
deriving DecidableEq, Repr

/-- Finalized outgoing announcement (announcement.rs). -/
structure OutgoingAnnouncement where
  k_next : Bytes
  sk_next : Bytes
  seeker_next : Bytes
  id : Bytes
deriving DecidableEq, Repr

/-- Precursor state when receiving an announcement (announcement.rs). -/
structure IncomingAnnouncementPrecursor where
  pk_next : Bytes
  auth_payload : Bytes
  seeker_next : Bytes
  k_next : Bytes
  auth_key : Bytes
  id : Bytes
deriving DecidableEq, Repr

/-- Precursor state when creating an announcement (announcement.rs). -/
structure OutgoingAnnouncementPrecursor where
  randomness : Bytes
  kem_ct : Bytes
  cipher_key : Bytes
  cipher_nonce : Bytes
  auth_key : Bytes
  k_next : Bytes
  seeker_next : Bytes
  pk_next : Bytes
  sk_next : Bytes
  id : Bytes
deriving DecidableEq, Repr

/-- OutgoingAnnouncementPrecursor::new: encapsulate to the peer's static key,
run the announcement root KDF, generate the next ephemeral keypair and derive
the auth key.  The three randomness draws of the source are explicit. -/
def OutgoingAnnouncementPrecursor.new (P : Prim)
    (pk_peer randomness kemRandomness genRandomness : Bytes) :
    OutgoingAnnouncementPrecursor :=
  let ec := P.kemEncap pk_peer kemRandomness
  let root := P.annRootKdf randomness ec.2 ec.1 pk_peer
  let gk := P.kemGen genRandomness
  { randomness := randomness
    kem_ct := ec.1
    cipher_key := root.cipher_key
    cipher_nonce := root.cipher_nonce
    auth_key := P.annAuthKdf root.auth_pre_key gk.2
    k_next := root.k_next
    seeker_next := root.seeker_next
    pk_next := gk.2
    sk_next := gk.1
    id := root.id }

/-- OutgoingAnnouncementPrecursor::finalize: encrypt next_pk and the auth
payload, emit randomness, KEM ciphertext and body, keep the session keys. -/
def OutgoingAnnouncementPrecursor.finalize (P : Prim)
    (pre : OutgoingAnnouncementPrecursor) (auth_payload : Bytes) :
    Bytes × OutgoingAnnouncement :=
  let ciphertext := P.aeadEncrypt pre.cipher_key pre.cipher_nonce
    (pre.pk_next ++ auth_payload) []
  (pre.randomness ++ pre.kem_ct ++ ciphertext,
   { k_next := pre.k_next
     sk_next := pre.sk_next
     seeker_next := pre.seeker_next
     id := pre.id })

/-- IncomingAnnouncementPrecursor::try_from_incoming_announcement_bytes:
split randomness and KEM ciphertext, decapsulate, rerun the root KDF,
decrypt, and split next_pk from the auth payload.  Absence on any failure. -/
def IncomingAnnouncementPrecursor.tryFromIncomingAnnouncementBytes (P : Prim)
    (announcement_bytes our_pk our_sk : Bytes) :
    Option IncomingAnnouncementPrecursor :=
  if 32 ≤ announcement_bytes.length then
    let randomness := announcement_bytes.take 32
    if 32 + P.ctSize ≤ announcement_bytes.length then
      let ct := (announcement_bytes.drop 32).take P.ctSize
      let encrypted_message := announcement_bytes.drop (32 + P.ctSize)
      let ss := P.kemDecap our_sk ct
      let root := P.annRootKdf randomness ss ct our_pk
      match P.aeadDecrypt root.cipher_key root.cipher_nonce encrypted_message [] with
      | none => none
      | some plaintext =>
        if P.pkSize ≤ plaintext.length then
          let pk_next := plaintext.take P.pkSize
          some { pk_next := pk_next
                 auth_payload := plaintext.drop P.pkSize
                 seeker_next := root.seeker_next
                 k_next := root.k_next
                 auth_key := P.annAuthKdf root.auth_pre_key pk_next
                 id := root.id }
        else none
    else none
  else none

/-- IncomingAnnouncementPrecursor::finalize with the initiator's static key. -/
def IncomingAnnouncementPrecursor.finalize
    (pre : IncomingAnnouncementPrecursor) (pk_peer : Bytes) :
    Option IncomingAnnouncement :=
  some { pk_peer := pk_peer
         pk_next := pre.pk_next
         k_next := pre.k_next
         seeker_next := pre.seeker_next
         id := pre.id }

/-- Agraphon session state (agraphon.rs): role, our sent-message history and
the peer's latest message state. -/
structure Agraphon where
  role : Role
  self_msg_history : List HistoryItemSelf
  latest_peer_msg : HistoryItemPeer
deriving DecidableEq, Repr

/-- Agraphon::try_from_incoming_announcement: responder bootstrap, history at
local id 0 from our static key, peer state seeded from the announcement.
The source reads the announcement master key field that announcement.rs
stores as k_next. -/
def Agraphon.tryFromIncomingAnnouncement (P : Prim)
    (incoming_announcement : IncomingAnnouncement) (pk_self : Bytes) :
    Option Agraphon :=
  some
    { role := .responder
      self_msg_history := [HistoryItemSelf.initial P pk_self]
      latest_peer_msg :=
        { our_parent_id := 0
          pk_next := incoming_announcement.pk_peer
          mk_next := incoming_announcement.k_next
          seeker_next := incoming_announcement.seeker_next } }

/-- Agraphon::from_outgoing_announcement: initiator bootstrap, a single
history item at local id 1 whose key source is Static (the announcement's
ephemeral secret key is not stored), peer state from their static key. -/
def Agraphon.fromOutgoingAnnouncement (P : Prim)
    (outgoing_announcement : OutgoingAnnouncement) (pk_peer : Bytes) :
    Agraphon :=
  { role := .initiator
    self_msg_history :=
      [{ local_id := 1
         sk_next := .static
         mk_next := outgoing_announcement.k_next
         seeker_next := outgoing_announcement.seeker_next }]
    latest_peer_msg := HistoryItemPeer.initial P pk_peer }

/-- Agraphon::get_self_message_by_id: deque lookup at index
local_id - front.local_id, absent when the subtraction underflows or the
index is out of bounds. -/
def Agraphon.getSelfMessageById (st : Agraphon) (local_id : Nat) :
    Option HistoryItemSelf :=
  match st.self_msg_history.head? with
  | none => none
  | some front =>
    if front.local_id ≤ local_id then
      st.self_msg_history[local_id - front.local_id]?
    else none

/-- Agraphon::try_feed_incoming_message.  The returned state is the value of
self after the call: on every failure path the source returns before any
mutation, and on success it replaces latest_peer_msg and then pops every
history item with local_id below the parent.  The source's local names are
kept (self_msg is the peer's latest state, peer_msg our own history item). -/
def Agraphon.tryFeedIncomingMessage (P : Prim) (st : Agraphon)
    (our_parent_id : Nat) (self_static_sk message : Bytes) :
    Option Bytes × Agraphon :=
  match st.getSelfMessageById our_parent_id with
  | none => (none, st)
  | some peer_msg =>
    let self_msg := st.latest_peer_msg
    if P.ctSize ≤ message.length then
      let msg_ct := message.take P.ctSize
      let msg_sk :=
        match peer_msg.sk_next with
        | .static => self_static_sk
        | .ephemeral sk => sk
      let msg_ss := P.kemDecap msg_sk msg_ct
      let msg_root := P.msgRootKdf self_msg.mk_next peer_msg.mk_next msg_ss msg_ct
        st.role.opposite
      let content := P.cipherDecrypt msg_root.cipher_key msg_root.cipher_nonce
        (message.drop P.ctSize)
      if P.pkSize ≤ content.length then
        let pk_next := content.take P.pkSize
        if 32 ≤ content.length then
          let payload_end_index := content.length - 32
          if P.pkSize ≤ payload_end_index then
            let payload := (content.take payload_end_index).drop P.pkSize
            let integrity_key := content.drop payload_end_index
            let ikdf := P.msgIntegrityKdf msg_root.integrity_seed pk_next payload
            if integrity_key = ikdf.integrity_key then
              (some payload,
               { role := st.role
                 self_msg_history :=
                   st.self_msg_history.dropWhile
                     (fun m => decide (m.local_id < our_parent_id))
                 latest_peer_msg :=
                   { our_parent_id := our_parent_id
                     pk_next := pk_next
                     mk_next := ikdf.mk_next
                     seeker_next := ikdf.seeker_next } })
            else (none, st)
          else (none, st)
        else (none, st)
      else (none, st)
    else (none, st)

/-- Agraphon::send_outgoing_message with the two randomness draws explicit;
none models the panic on an empty history. -/
def Agraphon.sendOutgoingMessage (P : Prim) (st : Agraphon)
    (payload kemRandomness genRandomness : Bytes) :
    Option (Bytes × Agraphon) :=
  match st.self_msg_history.getLast? with
  | none => none
  | some self_msg =>
    let peer_msg := st.latest_peer_msg
    let ec := P.kemEncap peer_msg.pk_next kemRandomness
    let msg_root := P.msgRootKdf self_msg.mk_next peer_msg.mk_next ec.2 ec.1 st.role
    let gk := P.kemGen genRandomness
    let ikdf := P.msgIntegrityKdf msg_root.integrity_seed gk.2 payload
    let ciphertext := P.cipherEncrypt msg_root.cipher_key msg_root.cipher_nonce
      (gk.2 ++ payload ++ ikdf.integrity_key)
    some (ec.1 ++ ciphertext,
      { role := st.role
        self_msg_history := st.self_msg_history ++
          [{ local_id := self_msg.local_id + 1
             sk_next := .ephemeral gk.1
             mk_next := ikdf.mk_next
             seeker_next := ikdf.seeker_next }]
        latest_peer_msg := st.latest_peer_msg })

/-- Agraphon::lag_length: latest local id minus the last acknowledged parent;
none models the panics on empty history and on negative lag. -/
def Agraphon.lagLength (st : Agraphon) : Option Nat :=
  match st.self_msg_history.getLast? with
  | none => none
  | some back =>
    if st.latest_peer_msg.our_parent_id ≤ back.local_id then
      some (back.local_id - st.latest_peer_msg.our_parent_id)
    else none

/-- Configuration struct of the SessionManager (sessions crate).  The u128
millisecond quantities are naturals; saturating_sub is natural subtraction. -/
structure SessionManagerConfig where
  max_incoming_announcement_age_millis : Nat
  max_incoming_announcement_future_millis : Nat
  max_incoming_message_age_millis : Nat
  max_incoming_message_future_millis : Nat
  max_session_inactivity_millis : Nat
  keep_alive_interval_millis : Nat
  max_session_lag_length : Nat
deriving DecidableEq, Repr

/-- SessionInfo from sessions/session_manager.rs. -/
structure SessionInfo (σ : Type) where
  session : σ
  last_incoming_message_timestamp : Nat
  last_outgoing_message_timestamp : Nat
deriving DecidableEq, Repr

/-- PeerInfo from sessions/session_manager.rs. -/
structure PeerInfo (σ ρi ρo : Type) where
  active_session : Option (SessionInfo σ)
  latest_incoming_init_request : Option ρi
  latest_outgoing_init_request : Option ρo
deriving DecidableEq, Repr

instance (σ ρi ρo : Type) : Inhabited (PeerInfo σ ρi ρo) :=
  ⟨{ active_session := none
     latest_incoming_init_request := none
     latest_outgoing_init_request := none }⟩

/-- SessionManager state: config plus the peer table, with user ids as
naturals and the HashMap as a partial function. -/
structure SessionManager (σ ρi ρo : Type) where
  config : SessionManagerConfig
  peers : Nat → Option (PeerInfo σ ρi ρo)

/-- Interface of the Session layer as consumed by the SessionManager
(sessions/session.rs): σ is the session state, ρi and ρo the parsed
initiation requests, ω the output of a send.  The timestamp_millis clock is
an explicit argument where the source calls it. -/
structure SessionApi (σ ρi ρo ω : Type) where
  lagLength : σ → Nat
  sendOutgoingMessage : σ → Bytes → Nat → ω × σ
  outputTimestamp : ω → Nat
  tryParseIncomingInitiationRequest : Bytes → Bytes → Bytes → Option ρi
  incomingTimestampMillis : ρi → Nat
  incomingPeerId : ρi → Nat
  outgoingTimestampMillis : ρo → Nat
  fromInitiationRequestPair : ρo → ρi → σ

/-- Helper for stating properties: the active session recorded for a peer. -/
def SessionManager.activeSession {σ ρi ρo : Type}
    (m : SessionManager σ ρi ρo) (peer_id : Nat) : Option (SessionInfo σ) :=
  (m.peers peer_id).bind (fun peer_info => peer_info.active_session)

/-- SessionManager::send_message: absent without an active session or when
lag_length reaches max_session_lag_length; otherwise send on the session and
record the result's timestamp as last_outgoing_message_timestamp. -/
def SessionManager.sendMessage {σ ρi ρo ω : Type} (A : SessionApi σ ρi ρo ω)
    (m : SessionManager σ ρi ρo) (peer_id : Nat) (message : Bytes)
    (now : Nat) : Option ω × SessionManager σ ρi ρo :=
  match m.peers peer_id with
  | none => (none, m)
  | some peer_info =>
    match peer_info.active_session with
    | none => (none, m)
    | some active_session =>
      if m.config.max_session_lag_length ≤ A.lagLength active_session.session then
        (none, m)
      else
        let send_result := A.sendOutgoingMessage active_session.session message now
        (some send_result.1,
         { m with
           peers := Function.update m.peers peer_id
             (some { peer_info with
                     active_session := some
                       { session := send_result.2
                         last_incoming_message_timestamp :=
                           active_session.last_incoming_message_timestamp
                         last_outgoing_message_timestamp :=
                           A.outputTimestamp send_result.1 } }) })

/-- SessionManager::feed_incoming_announcement: parse, apply the freshness
window, require strict timestamp growth over the stored incoming request,
rebuild the active session when an outgoing request exists, then store the
new incoming request under the peer's entry (created on demand). -/
def SessionManager.feedIncomingAnnouncement {σ ρi ρo ω : Type}
    (A : SessionApi σ ρi ρo ω) (m : SessionManager σ ρi ρo)
    (announcement_bytes our_pk our_sk : Bytes) (now : Nat) :
    SessionManager σ ρi ρo :=
  match A.tryParseIncomingInitiationRequest announcement_bytes our_pk our_sk with
  | none => m
  | some req =>
    if A.incomingTimestampMillis req <
        now - m.config.max_incoming_announcement_age_millis then m
    else if now + m.config.max_incoming_announcement_future_millis <
        A.incomingTimestampMillis req then m
    else
      let peer_id := A.incomingPeerId req
      let stale : Bool :=
        match m.peers peer_id with
        | some peer_info =>
          match peer_info.latest_incoming_init_request with
          | some prev =>
            decide (A.incomingTimestampMillis req ≤ A.incomingTimestampMillis prev)
          | none => false
        | none => false
      if stale then m
      else
        let m1 : SessionManager σ ρi ρo :=
          match m.peers peer_id with
          | some peer_info =>
            match peer_info.latest_outgoing_init_request with
            | some outreq =>
              { m with
                peers := Function.update m.peers peer_id
                  (some { peer_info with
                          active_session := some
                            { session := A.fromInitiationRequestPair outreq req
                              last_incoming_message_timestamp :=
                                A.incomingTimestampMillis req
                              last_outgoing_message_timestamp :=
                                A.outgoingTimestampMillis outreq } }) }
            | none => m
          | none => m
        let peer_info1 := (m1.peers peer_id).getD default
        { m1 with
          peers := Function.update m1.peers peer_id
            (some { peer_info1 with latest_incoming_init_request := some req }) }

/-- Abstract AES-256-SIV interface (crypto-aead): authenticated encryption
with the round-trip contract the wrapper documents. -/
structure AeadScheme where
  encrypt : Bytes → Bytes → Bytes → Bytes → Bytes
  decrypt : Bytes → Bytes → Bytes → Bytes → Option Bytes
  decrypt_encrypt : ∀ k n m a, decrypt k n (encrypt k n m a) a = some m

/-- Abstract bincode interface for a serializable type with the
deserialize-serialize round-trip contract. -/
structure SerdeScheme (α : Type) where
  encode : α → Bytes
  decode : Bytes → Option α
  decode_encode : ∀ x, decode (encode x) = some x

/-- SessionManager::to_encrypted_blob: serialize, encrypt under the fresh
nonce (passed explicitly), and prepend the nonce. -/
def toEncryptedBlob {α : Type} (A : AeadScheme) (S : SerdeScheme α)
    (st : α) (key nonce_bytes : Bytes) : Option Bytes :=
  let serialized_blob := S.encode st
  let encrypted_blob := A.encrypt key nonce_bytes serialized_blob []
  some (nonce_bytes ++ encrypted_blob)

/-- SessionManager::from_encrypted_blob as the source writes it: read the
16-byte nonce from the front, then pass the WHOLE blob, nonce prefix
included, to AEAD decryption (session_manager.rs line 239 decrypts
encrypted_blob, not encrypted_blob[NONCE_SIZE..]). -/
def fromEncryptedBlob {α : Type} (A : AeadScheme) (S : SerdeScheme α)
    (encrypted_blob key : Bytes) : Option α :=
  if 16 ≤ encrypted_blob.length then
    let nonce := encrypted_blob.take 16
    match A.decrypt key nonce encrypted_blob [] with
    | none => none
    | some decrypted_blob => S.decode decrypted_blob
  else none

/-- Deserialization as the specification words it ("split nonce, decrypt,
deserialize"): decrypt only the bytes after the 16-byte nonce.  Stated for
comparison with the source's fromEncryptedBlob. -/
def fromEncryptedBlobSpec {α : Type} (A : AeadScheme) (S : SerdeScheme α)
    (encrypted_blob key : Bytes) : Option α :=
  if 16 ≤ encrypted_blob.length then
    match A.decrypt key (encrypted_blob.take 16) (encrypted_blob.drop 16) [] with
    | none => none
    | some decrypted_blob => S.decode decrypted_blob
  else none

/-- Big-endian byte expansion with k bytes, as u64::to_be_bytes for k = 8
(high bits beyond the k bytes are dropped, as in the fixed-width integer). -/
def natToBeBytes : Nat → Nat → Bytes
  | 0, _ => []
  | k + 1, n => natToBeBytes k (n / 256) ++ [n % 256]

/-- Big-endian byte recomposition, as u64::from_be_bytes. -/
def beBytesToNat (l : Bytes) : Nat :=
  l.foldl (fun acc b => acc * 256 + b) 0

/-- padded_serialize from session/session.rs: serialize, round the size of
length prefix plus body up to a 512 multiple, fill the buffer from the RNG
(explicit here), then overwrite the first 8 bytes with the big-endian u64
length and the next bytes with the body. -/
def paddedSerialize {α : Type} (S : SerdeScheme α) (x : α)
    (randomFill : Nat → Nat) : Bytes :=
  let serialized_message := S.encode x
  let padded_size :=
    ((serialized_message.length + 8 + 512 - 1) / 512) * 512
  let padded_message := (List.range padded_size).map randomFill
  natToBeBytes 8 serialized_message.length ++ serialized_message ++
    padded_message.drop (8 + serialized_message.length)

/-- padded_deserialize from session/session.rs: read the u64 length, slice
the body, discard the padding, deserialize. -/
def paddedDeserialize {α : Type} (S : SerdeScheme α) (msg : Bytes) :
    Option α :=
  if 8 ≤ msg.length then
    let serialized_length := beBytesToNat (msg.take 8)
    let end_index := 8 + serialized_length
    if end_index ≤ msg.length then
      S.decode ((msg.take end_index).drop 8)
    else none
  else none

/-- The history invariant stated by the spec: the local ids of
self_msg_history form a contiguous ascending run. -/
def Contiguous (l : List HistoryItemSelf) : Prop :=
  ∃ s, l.map HistoryItemSelf.local_id = List.range' s l.length

/-- Concrete instantiation of the primitive interface, used to evaluate the
embedded operations on explicit inputs.  Keys are one byte, the stream
cipher is the identity, the AEAD prepends a zero tag, and the KDFs are
simple injections of their inputs. -/
def toyPrim : Prim where
  pkSize := 1
  ctSize := 1
  kemGen := fun r => ([r.sum], [r.sum])
  kemEncap := fun pk _ => ([7], pk)
  kemDecap := fun sk _ => sk
  kemGenPkLen := fun _ => rfl
  kemEncapCtLen := fun _ _ => rfl
  kemCorrect := fun _ _ => rfl
  cipherEncrypt := fun _ _ m => m
  cipherDecrypt := fun _ _ m => m
  cipherLen := fun _ _ _ => rfl
  cipherRoundtrip := fun _ _ _ => rfl
  aeadEncrypt := fun _ _ m _ => 0 :: m
  aeadDecrypt := fun _ _ c _ =>
    match c with
    | [] => none
    | t :: rest => if t = 0 then some rest else none
  aeadRoundtrip := fun _ _ _ _ => rfl
  staticKdf := fun pk => ([pk.sum + 1], [pk.sum + 2])
  msgRootKdf := fun a b c d _ =>
    { cipher_key := [], cipher_nonce := [], integrity_seed := a ++ b ++ c ++ d }
  msgIntegrityKdf := fun s pk p =>
    { mk_next := [s.sum]
      integrity_key := List.replicate 32 (s.sum + pk.sum + p.sum)
      seeker_next := [pk.sum] }
  msgIntegrityKeyLen := fun _ _ _ => by simp
  seekerKdf := fun a b => a ++ b
  annRootKdf := fun r ss ct pk =>
    { cipher_key := [], cipher_nonce := [], auth_pre_key := r ++ ss
      k_next := ss ++ ct, seeker_next := pk, id := r }
  annAuthKdf := fun pre pk => pre ++ pk

/-- Concrete AEAD instance for evaluating the persistence functions. -/
def toyAead : AeadScheme where
  encrypt := fun _ _ m _ => 0 :: m
  decrypt := fun _ _ c _ =>
    match c with
    | [] => none
    | t :: rest => if t = 0 then some rest else none
  decrypt_encrypt := fun _ _ _ _ => rfl

/-- Concrete serialization instance on naturals. -/
def toySerdeNat : SerdeScheme Nat where
  encode := fun n => [n]
  decode := fun l =>
    match l with
    | [x] => some x
    | _ => none
  decode_encode := fun _ => rfl

theorem beBytesToNat_append_singleton (l : Bytes) (b : Nat) :
    beBytesToNat (l ++ [b]) = beBytesToNat l * 256 + b := by
  unfold beBytesToNat
  rw [List.foldl_append]
  rfl

theorem length_natToBeBytes (k n : Nat) : (natToBeBytes k n).length = k := by
  induction k generalizing n with
  | zero => rfl
  | succ k ih => simp [natToBeBytes, ih]

theorem beBytesToNat_natToBeBytes (k n : Nat) (h : n < 256 ^ k) :
    beBytesToNat (natToBeBytes k n) = n := by
  induction k generalizing n with
  | zero =>
    simp only [pow_zero, Nat.lt_one_iff] at h
    subst h
    rfl
  | succ k ih =>
    have hdiv : n / 256 < 256 ^ k := by
      rw [Nat.div_lt_iff_lt_mul (by norm_num)]
      calc n < 256 ^ (k + 1) := h
        _ = 256 ^ k * 256 := by rw [pow_succ]
    rw [natToBeBytes, beBytesToNat_append_singleton, ih (n / 256) hdiv]
    omega

/-- C9: padded_serialize always yields a positive multiple of 512 bytes,
consisting of the big-endian u64 length prefix, the serialized bytes, and
fill; padded_deserialize recovers the value regardless of the random fill. -/
theorem padded_serialize_roundtrip {α : Type} (S : SerdeScheme α) (x : α)
    (randomFill : Nat → Nat) (h64 : (S.encode x).length < 2 ^ 64) :
    (paddedSerialize S x randomFill).length % 512 = 0
    ∧ 0 < (paddedSerialize S x randomFill).length
    ∧ paddedDeserialize S (paddedSerialize S x randomFill) = some x := by
  have h256 : (S.encode x).length < 256 ^ 8 := by
    calc (S.encode x).length < 2 ^ 64 := h64
      _ = 256 ^ 8 := by norm_num
  set L := (S.encode x).length with hL
  set q := (L + 8 + 512 - 1) / 512 with hq
  have hqm : 512 * q ≤ L + 8 + 512 - 1 := by
    rw [hq]; exact Nat.mul_div_le (L + 8 + 512 - 1) 512
  have hmod := Nat.div_add_mod (L + 8 + 512 - 1) 512
  have hr : (L + 8 + 512 - 1) % 512 < 512 := Nat.mod_lt _ (by norm_num)
  have hle : 8 + L ≤ q * 512 := by omega
  have hpos : 0 < q * 512 := by omega
  have hlen : (paddedSerialize S x randomFill).length = q * 512 := by
    simp only [paddedSerialize, List.length_append, List.length_drop,
      List.length_map, List.length_range, length_natToBeBytes, ← hL, ← hq]
    omega
  refine ⟨by rw [hlen]; exact Nat.mul_mod_left q 512, by omega, ?_⟩
  have hsplit : paddedSerialize S x randomFill
      = (natToBeBytes 8 L ++ S.encode x) ++
        (((List.range (q * 512)).map randomFill).drop (8 + L)) := by
    simp only [paddedSerialize, ← hL, ← hq, List.append_assoc]
  have hlen2 : (natToBeBytes 8 L ++ S.encode x).length = 8 + L := by
    simp [length_natToBeBytes, ← hL]
  unfold paddedDeserialize
  rw [if_pos (by omega)]
  have htake8 : (paddedSerialize S x randomFill).take 8 = natToBeBytes 8 L := by
    rw [hsplit, List.append_assoc, List.take_left' (length_natToBeBytes 8 L)]
  rw [htake8, beBytesToNat_natToBeBytes 8 L h256]
  rw [if_pos (by omega)]
  rw [hsplit, List.take_left' hlen2, List.drop_left' (length_natToBeBytes 8 L)]
  exact S.decode_encode x

/-- Witness for padded_serialize_roundtrip at a concrete value, scheme and
fill function. -/
theorem padded_serialize_roundtrip_witness :
    (toySerdeNat.encode 3).length < 2 ^ 64
    ∧ ((paddedSerialize toySerdeNat 3 (fun _ => 9)).length % 512 = 0
      ∧ 0 < (paddedSerialize toySerdeNat 3 (fun _ => 9)).length
      ∧ paddedDeserialize toySerdeNat (paddedSerialize toySerdeNat 3 (fun _ => 9))
          = some 3) :=
  ⟨by norm_num [toySerdeNat],
   padded_serialize_roundtrip toySerdeNat 3 (fun _ => 9) (by norm_num [toySerdeNat])⟩

/-- C1: evaluation of the persistence round-trip as the source writes it.
to_encrypted_blob produces nonce plus ciphertext, but from_encrypted_blob
passes the whole blob, nonce prefix included, to AEAD decryption, so the
authenticated decryption rejects every blob to_encrypted_blob produced and
the round-trip returns none; deserializing per the specification's words
(split the nonce off first) recovers the state from the same blob. -/
theorem from_to_encrypted_blob_fails :
    toEncryptedBlob toyAead toySerdeNat 7 [] (List.replicate 16 1)
      = some (List.replicate 16 1 ++ 0 :: [7])
    ∧ fromEncryptedBlob toyAead toySerdeNat (List.replicate 16 1 ++ 0 :: [7]) [] = none
    ∧ fromEncryptedBlobSpec toyAead toySerdeNat (List.replicate 16 1 ++ 0 :: [7]) []
      = some 7 := by
  refine ⟨rfl, ?_, ?_⟩ <;> decide

theorem map_dropWhile_lt (l : List HistoryItemSelf) (s p : Nat)
    (h : l.map HistoryItemSelf.local_id = List.range' s l.length)
    (hsp : s ≤ p) (hp : p - s < l.length) :
    (l.dropWhile (fun m => decide (m.local_id < p))).map HistoryItemSelf.local_id
      = List.range' p (l.length - (p - s)) := by
  induction l generalizing s with
  | nil => simp at hp
  | cons a t ih =>
    rw [List.length_cons, List.range'_succ] at h
    simp only [List.map_cons, List.cons.injEq] at h
    obtain ⟨ha, ht⟩ := h
    simp only [List.length_cons] at hp
    by_cases hlt : a.local_id < p
    · rw [List.dropWhile_cons_of_pos (by simpa using hlt)]
      have hs' : s < p := by omega
      have h1 : s + 1 ≤ p := by omega
      have h2 : p - (s + 1) < t.length := by omega
      rw [ih (s + 1) ht h1 h2]
      congr 1
      simp only [List.length_cons]
      omega
    · rw [List.dropWhile_cons_of_neg (by simpa using hlt)]
      have hsp' : s = p := by omega
      subst hsp'
      have hcount : (a :: t).length - (s - s) = t.length + 1 := by
        simp only [List.length_cons]; omega
      rw [hcount, List.range'_succ, List.map_cons, ha, ht]

theorem contiguous_head (l : List HistoryItemSelf) (s : Nat)
    (h : l.map HistoryItemSelf.local_id = List.range' s l.length) (hne : l ≠ []) :
    ∃ front, l.head? = some front ∧ front.local_id = s := by
  cases l with
  | nil => exact absurd rfl hne
  | cons a t =>
    refine ⟨a, rfl, ?_⟩
    rw [List.length_cons, List.range'_succ] at h
    simpa using congrArg List.head? h

theorem contiguous_getLast (l : List HistoryItemSelf) (s : Nat)
    (h : l.map HistoryItemSelf.local_id = List.range' s l.length) (hne : l ≠ []) :
    ∃ back, l.getLast? = some back ∧ back.local_id = s + l.length - 1 := by
  have hn : l.length - 1 + 1 = l.length := by
    have := List.length_pos.mpr hne
    omega
  have hr : List.range' s l.length = List.range' s (l.length - 1) ++ [s + (l.length - 1)] := by
    conv_lhs => rw [← hn]
    rw [List.range'_concat]
    simp
  have hlast : (l.map HistoryItemSelf.local_id).getLast? = some (s + (l.length - 1)) := by
    rw [h, hr, List.getLast?_concat]
  rw [List.getLast?_map] at hlast
  obtain ⟨back, hb, hbid⟩ := Option.map_eq_some'.mp hlast
  exact ⟨back, hb, by omega⟩

theorem getSelfMessageById_facts (st : Agraphon) (p : Nat) (it : HistoryItemSelf)
    (h : st.getSelfMessageById p = some it) :
    ∃ front, st.self_msg_history.head? = some front ∧ front.local_id ≤ p ∧
      p - front.local_id < st.self_msg_history.length ∧
      st.self_msg_history[p - front.local_id]? = some it := by
  unfold Agraphon.getSelfMessageById at h
  split at h
  · exact absurd h (by simp)
  · rename_i front hh
    split at h
    · rename_i hle
      exact ⟨front, hh, hle, (List.getElem?_eq_some.mp h).1, h⟩
    · exact absurd h (by simp)

theorem tryFeed_success (P : Prim) (st : Agraphon) (p : Nat)
    (sk msg payload : Bytes) (st' : Agraphon)
    (h : Agraphon.tryFeedIncomingMessage P st p sk msg = (some payload, st')) :
    ∃ peer_msg, st.getSelfMessageById p = some peer_msg ∧
      st'.role = st.role ∧
      st'.latest_peer_msg.our_parent_id = p ∧
      st'.self_msg_history =
        st.self_msg_history.dropWhile (fun m => decide (m.local_id < p)) := by
  unfold Agraphon.tryFeedIncomingMessage at h
  split at h
  · exact absurd h (by simp)
  · rename_i peer_msg hl
    refine ⟨peer_msg, hl, ?_⟩
    simp only [] at h
    repeat split at h
    all_goals first
      | (injection h with h1 h2; subst h2; exact ⟨rfl, rfl, rfl⟩)
      | (exact absurd h (by simp))

/-- C3: receive-failure atomicity.  Whenever try_feed_incoming_message
returns absence (absent parent id, short message, malformed fields,
integrity mismatch), the session state it leaves behind is exactly the
input state: no partial mutation on any failure path. -/
theorem try_feed_failure_leaves_state_unchanged (P : Prim) (st : Agraphon)
    (p : Nat) (sk msg : Bytes) (st' : Agraphon)
    (h : Agraphon.tryFeedIncomingMessage P st p sk msg = (none, st')) :
    st' = st := by
  unfold Agraphon.tryFeedIncomingMessage at h
  split at h
  · injection h with h1 h2
    exact h2.symm
  · simp only [] at h
    repeat split at h
    all_goals first
      | (injection h with h1 h2; exact Option.noConfusion h1)
      | (injection h with h1 h2; exact h2.symm)

/-- Initiator session over the concrete primitive instance, used to
evaluate the embedded operations. -/
def agraphonExample : Agraphon :=
  Agraphon.fromOutgoingAnnouncement toyPrim
    { k_next := [1], sk_next := [2], seeker_next := [3], id := [4] } [5]

/-- Witness for try_feed_failure_leaves_state_unchanged: feeding a message
with an absent parent id leaves the concrete session unchanged. -/
theorem try_feed_failure_leaves_state_unchanged_witness :
    (Agraphon.tryFeedIncomingMessage toyPrim agraphonExample 5 [] []).2
      = agraphonExample :=
  try_feed_failure_leaves_state_unchanged toyPrim agraphonExample 5 [] [] _ rfl

/-- C4: acknowledgement pruning.  On a state whose history satisfies the
documented contiguity invariant, a successful try_feed_incoming_message with
parent id p records p in latest_peer_msg, leaves no history item with
local_id below p, and retains the item with local_id p itself. -/
theorem try_feed_ack_pruning (P : Prim) (st : Agraphon) (p : Nat)
    (sk msg payload : Bytes) (st' : Agraphon)
    (hcontig : Contiguous st.self_msg_history)
    (h : Agraphon.tryFeedIncomingMessage P st p sk msg = (some payload, st')) :
    st'.latest_peer_msg.our_parent_id = p
    ∧ (∀ it ∈ st'.self_msg_history, p ≤ it.local_id)
    ∧ (∃ it ∈ st'.self_msg_history, it.local_id = p) := by
  obtain ⟨peer_msg, hl, hrole, hpar, hhist⟩ := tryFeed_success P st p sk msg payload st' h
  obtain ⟨s, hs⟩ := hcontig
  obtain ⟨front, hfh, hfle, hflt, hget⟩ := getSelfMessageById_facts st p peer_msg hl
  have hne : st.self_msg_history ≠ [] := by
    intro hnil
    rw [hnil] at hfh
    exact absurd hfh (by simp)
  obtain ⟨front', hfh', hfid⟩ := contiguous_head _ s hs hne
  rw [hfh] at hfh'
  injection hfh' with hfront
  have hfids : front.local_id = s := by rw [hfront]; exact hfid
  have hsle : s ≤ p := hfids ▸ hfle
  have hplt : p - s < st.self_msg_history.length := by omega
  have hdrop := map_dropWhile_lt _ s p hs hsle hplt
  rw [← hhist] at hdrop
  refine ⟨hpar, ?_, ?_⟩
  · intro it hit
    have hmem : it.local_id ∈ st'.self_msg_history.map HistoryItemSelf.local_id :=
      List.mem_map_of_mem _ hit
    rw [hdrop] at hmem
    exact (List.mem_range'_1.mp hmem).1
  · have hpmem : p ∈ st'.self_msg_history.map HistoryItemSelf.local_id := by
      rw [hdrop]
      exact List.mem_range'_1.mpr ⟨le_refl p, by omega⟩
    obtain ⟨it, hit, hid⟩ := List.mem_map.mp hpmem
    exact ⟨it, hit, hid⟩

/-- Responder-shaped session used to evaluate a successful receive. -/
def agraphonFeedExample : Agraphon :=
  { role := .responder
    self_msg_history :=
      [{ local_id := 0, sk_next := .static, mk_next := [2], seeker_next := [0] }]
    latest_peer_msg :=
      { our_parent_id := 0, pk_next := [9], mk_next := [1], seeker_next := [0] } }

/-- A wire message that the concrete responder session accepts. -/
def feedExampleMessage : Bytes := 0 :: 3 :: List.replicate 32 6

/-- Witness for try_feed_ack_pruning at a concrete session and message. -/
theorem try_feed_ack_pruning_witness :
    Contiguous agraphonFeedExample.self_msg_history
    ∧ ((Agraphon.tryFeedIncomingMessage toyPrim agraphonFeedExample 0 []
          feedExampleMessage).2.latest_peer_msg.our_parent_id = 0
      ∧ (∀ it ∈ (Agraphon.tryFeedIncomingMessage toyPrim agraphonFeedExample 0 []
          feedExampleMessage).2.self_msg_history, 0 ≤ it.local_id)
      ∧ (∃ it ∈ (Agraphon.tryFeedIncomingMessage toyPrim agraphonFeedExample 0 []
          feedExampleMessage).2.self_msg_history, it.local_id = 0)) :=
  ⟨⟨0, rfl⟩,
   try_feed_ack_pruning toyPrim agraphonFeedExample 0 [] feedExampleMessage [] _
     ⟨0, rfl⟩ rfl⟩

/-- Reachable Agraphon session states: constructed from an outgoing or
incoming announcement and closed under sending and successful receiving. -/
inductive Agraphon.Reachable (P : Prim) : Agraphon → Prop where
  | ofOutgoing (out : OutgoingAnnouncement) (pk_peer : Bytes) :
      Agraphon.Reachable P (Agraphon.fromOutgoingAnnouncement P out pk_peer)
  | ofIncoming (inc : IncomingAnnouncement) (pk_self : Bytes) (st : Agraphon) :
      Agraphon.tryFromIncomingAnnouncement P inc pk_self = some st →
      Agraphon.Reachable P st
  | send (st : Agraphon) (payload kr gr out : Bytes) (st' : Agraphon) :
      Agraphon.Reachable P st →
      Agraphon.sendOutgoingMessage P st payload kr gr = some (out, st') →
      Agraphon.Reachable P st'
  | feed (st : Agraphon) (p : Nat) (sk msg payload : Bytes) (st' : Agraphon) :
      Agraphon.Reachable P st →
      Agraphon.tryFeedIncomingMessage P st p sk msg = (some payload, st') →
      Agraphon.Reachable P st'

/-- Internal invariant: the history ids form a contiguous run starting at
some s that bounds the last acknowledged parent id from above. -/
def AgraphonInv (st : Agraphon) : Prop :=
  ∃ s, st.self_msg_history ≠ []
    ∧ st.self_msg_history.map HistoryItemSelf.local_id
        = List.range' s st.self_msg_history.length
    ∧ st.latest_peer_msg.our_parent_id ≤ s

theorem send_success (P : Prim) (st : Agraphon) (payload kr gr out : Bytes)
    (st' : Agraphon)
    (h : Agraphon.sendOutgoingMessage P st payload kr gr = some (out, st')) :
    ∃ back, st.self_msg_history.getLast? = some back ∧
      st'.role = st.role ∧
      st'.latest_peer_msg = st.latest_peer_msg ∧
      ∃ item, st'.self_msg_history = st.self_msg_history ++ [item]
        ∧ item.local_id = back.local_id + 1 := by
  unfold Agraphon.sendOutgoingMessage at h
  split at h
  · exact absurd h (by simp)
  · rename_i back hlast
    simp only [Option.some.injEq, Prod.mk.injEq] at h
    obtain ⟨h1, h2⟩ := h
    subst h2
    exact ⟨back, hlast, rfl, rfl, _, rfl, rfl⟩

theorem reachable_inv (P : Prim) (st : Agraphon)
    (h : Agraphon.Reachable P st) : AgraphonInv st := by
  induction h with
  | ofOutgoing out pk_peer =>
    exact ⟨1, by simp [Agraphon.fromOutgoingAnnouncement], rfl,
      by simp [Agraphon.fromOutgoingAnnouncement, HistoryItemPeer.initial]⟩
  | ofIncoming inc pk_self st heq =>
    unfold Agraphon.tryFromIncomingAnnouncement at heq
    simp only [Option.some.injEq] at heq
    subst heq
    exact ⟨0, by simp, rfl, by simp⟩
  | send st payload kr gr out st' hr hs ih =>
    obtain ⟨s, hne, hmap, hpar⟩ := ih
    obtain ⟨back, hlast, hrole, hpeer, item, hhist, hid⟩ :=
      send_success P st payload kr gr out st' hs
    obtain ⟨back', hb', hbid⟩ := contiguous_getLast _ s hmap hne
    rw [hlast] at hb'
    injection hb' with hbb
    have hlen : 1 ≤ st.self_msg_history.length := List.length_pos.mpr hne
    refine ⟨s, by simp [hhist], ?_, by rw [hpeer]; exact hpar⟩
    rw [hhist, List.map_append, hmap, List.length_append]
    have hidv : item.local_id = s + st.self_msg_history.length := by
      rw [hid, hbb, hbid]
      omega
    simp only [List.map_cons, List.map_nil, List.length_cons, List.length_nil]
    rw [hidv, List.range'_concat]
    simp [one_mul]
  | feed st p sk msg payload st' hr hf ih =>
    obtain ⟨s, hne, hmap, hpar⟩ := ih
    obtain ⟨peer_msg, hl, hrole, hparent, hhist⟩ :=
      tryFeed_success P st p sk msg payload st' hf
    obtain ⟨front, hfh, hfle, hflt, _⟩ := getSelfMessageById_facts st p peer_msg hl
    obtain ⟨front', hfh', hfid⟩ := contiguous_head _ s hmap hne
    rw [hfh] at hfh'
    injection hfh' with hfront
    have hfids : front.local_id = s := by rw [hfront]; exact hfid
    have hsle : s ≤ p := by omega
    have hplt : p - s < st.self_msg_history.length := by omega
    have hdrop := map_dropWhile_lt _ s p hmap hsle hplt
    rw [← hhist] at hdrop
    have hlen : st'.self_msg_history.length
        = st.self_msg_history.length - (p - s) := by
      have := congrArg List.length hdrop
      simpa using this
    refine ⟨p, ?_, ?_, by rw [hparent]⟩
    · intro hnil
      rw [hnil] at hlen
      simp at hlen
      omega
    · rw [hlen]
      exact hdrop

/-- C5: every reachable Agraphon state (construction from an outgoing or
incoming announcement, sends, successful receives) has a non-empty history
whose local ids form a contiguous ascending run, its lag_length computation
never hits a panic and returns back.local_id - our_parent_id (a natural,
hence nonnegative), and a further successful receive never decreases
latest_peer_msg.our_parent_id. -/
theorem agraphon_reachable_invariants (P : Prim) (st : Agraphon)
    (h : Agraphon.Reachable P st) :
    st.self_msg_history ≠ []
    ∧ Contiguous st.self_msg_history
    ∧ (∃ back, st.self_msg_history.getLast? = some back
        ∧ st.latest_peer_msg.our_parent_id ≤ back.local_id
        ∧ st.lagLength
            = some (back.local_id - st.latest_peer_msg.our_parent_id))
    ∧ ∀ p sk msg payload st',
        Agraphon.tryFeedIncomingMessage P st p sk msg = (some payload, st') →
        st.latest_peer_msg.our_parent_id ≤ st'.latest_peer_msg.our_parent_id := by
  obtain ⟨s, hne, hmap, hpar⟩ := reachable_inv P st h
  refine ⟨hne, ⟨s, hmap⟩, ?_, ?_⟩
  · obtain ⟨back, hb, hbid⟩ := contiguous_getLast _ s hmap hne
    have hlen : 1 ≤ st.self_msg_history.length := List.length_pos.mpr hne
    have hple : st.latest_peer_msg.our_parent_id ≤ back.local_id := by omega
    refine ⟨back, hb, hple, ?_⟩
    unfold Agraphon.lagLength
    rw [hb]
    simp only [hple, if_pos]
  · intro p sk msg payload st' hf
    obtain ⟨peer_msg, hl, _, hparent, _⟩ :=
      tryFeed_success P st p sk msg payload st' hf
    obtain ⟨front, hfh, hfle, _, _⟩ := getSelfMessageById_facts st p peer_msg hl
    obtain ⟨front', hfh', hfid⟩ := contiguous_head _ s hmap hne
    rw [hfh] at hfh'
    injection hfh' with hfront
    rw [hparent]
    have : front.local_id = s := by rw [hfront]; exact hfid
    omega

/-- Witness for agraphon_reachable_invariants at the concrete initiator
session, reachable by construction. -/
theorem agraphon_reachable_invariants_witness :
    agraphonExample.self_msg_history ≠ []
    ∧ Contiguous agraphonExample.self_msg_history
    ∧ (∃ back, agraphonExample.self_msg_history.getLast? = some back
        ∧ agraphonExample.latest_peer_msg.our_parent_id ≤ back.local_id
        ∧ agraphonExample.lagLength
            = some (back.local_id - agraphonExample.latest_peer_msg.our_parent_id))
    ∧ ∀ p sk msg payload st',
        Agraphon.tryFeedIncomingMessage toyPrim agraphonExample p sk msg
          = (some payload, st') →
        agraphonExample.latest_peer_msg.our_parent_id
          ≤ st'.latest_peer_msg.our_parent_id :=
  agraphon_reachable_invariants toyPrim agraphonExample
    (Agraphon.Reachable.ofOutgoing
      { k_next := [1], sk_next := [2], seeker_next := [3], id := [4] } [5])

/-- C10: role asymmetry at bootstrap.  The initiator's history is the single
item at local_id 1 with the Static key source (the announcement's ephemeral
secret key is not stored) carrying the announcement master key, and its
lag_length is 1; the responder's history is the single initial item at
local_id 0 with Static key source, and its lag_length is 0. -/
theorem agraphon_bootstrap_asymmetry (P : Prim) (out : OutgoingAnnouncement)
    (pk_peer : Bytes) (inc : IncomingAnnouncement) (pk_self : Bytes) :
    (Agraphon.fromOutgoingAnnouncement P out pk_peer).self_msg_history
      = [{ local_id := 1, sk_next := .static, mk_next := out.k_next,
           seeker_next := out.seeker_next }]
    ∧ (Agraphon.fromOutgoingAnnouncement P out pk_peer).lagLength = some 1
    ∧ ∃ st, Agraphon.tryFromIncomingAnnouncement P inc pk_self = some st
        ∧ st.self_msg_history = [HistoryItemSelf.initial P pk_self]
        ∧ (HistoryItemSelf.initial P pk_self).local_id = 0
        ∧ (HistoryItemSelf.initial P pk_self).sk_next = .static
        ∧ st.lagLength = some 0 :=
  ⟨rfl, rfl, _, rfl, rfl, rfl, rfl, rfl⟩

theorem announcement_roundtrip_aux (P : Prim)
    (skB pkB r0 randomness kemRand genRand auth_payload : Bytes)
    (hgen : P.kemGen r0 = (skB, pkB)) (hlen : randomness.length = 32) :
    IncomingAnnouncementPrecursor.tryFromIncomingAnnouncementBytes P
        ((OutgoingAnnouncementPrecursor.new P pkB randomness kemRand
          genRand).finalize P auth_payload).1 pkB skB
      = some
        { pk_next :=
            (OutgoingAnnouncementPrecursor.new P pkB randomness kemRand
              genRand).pk_next
          auth_payload := auth_payload
          seeker_next :=
            (OutgoingAnnouncementPrecursor.new P pkB randomness kemRand
              genRand).seeker_next
          k_next :=
            (OutgoingAnnouncementPrecursor.new P pkB randomness kemRand
              genRand).k_next
          auth_key :=
            (OutgoingAnnouncementPrecursor.new P pkB randomness kemRand
              genRand).auth_key
          id :=
            (OutgoingAnnouncementPrecursor.new P pkB randomness kemRand
              genRand).id } := by
  have hsk : skB = (P.kemGen r0).1 := by rw [hgen]
  have hpk : pkB = (P.kemGen r0).2 := by rw [hgen]
  subst hsk
  subst hpk
  simp only [OutgoingAnnouncementPrecursor.new, OutgoingAnnouncementPrecursor.finalize]
  set pk0 := (P.kemGen r0).2 with hpk0
  set ct := (P.kemEncap pk0 kemRand).1 with hctd
  set ss := (P.kemEncap pk0 kemRand).2 with hssd
  set root := P.annRootKdf randomness ss ct pk0 with hrootd
  set pkN := (P.kemGen genRand).2 with hpkNd
  set cc := P.aeadEncrypt root.cipher_key root.cipher_nonce (pkN ++ auth_payload) []
    with hccd
  have hct : ct.length = P.ctSize := P.kemEncapCtLen pk0 kemRand
  have hpkN : pkN.length = P.pkSize := P.kemGenPkLen genRand
  have hb1 : (randomness ++ ct ++ cc).take 32 = randomness := by
    rw [List.append_assoc, List.take_left' hlen]
  have hb2 : ((randomness ++ ct ++ cc).drop 32).take P.ctSize = ct := by
    rw [List.append_assoc, List.drop_left' hlen, List.take_left' hct]
  have hb3 : (randomness ++ ct ++ cc).drop (32 + P.ctSize) = cc := by
    have hlen2 : (randomness ++ ct).length = 32 + P.ctSize := by
      rw [List.length_append, hlen, hct]
    rw [List.drop_left' hlen2]
  have hblen : 32 + P.ctSize ≤ (randomness ++ ct ++ cc).length := by
    simp only [List.length_append, hlen, hct]
    omega
  unfold IncomingAnnouncementPrecursor.tryFromIncomingAnnouncementBytes
  rw [if_pos (by omega)]
  simp only []
  rw [if_pos hblen]
  rw [hb1, hb2, hb3]
  rw [P.kemCorrect r0 kemRand]
  rw [← hssd, ← hrootd]
  rw [P.aeadRoundtrip]
  have hple : P.pkSize ≤ (pkN ++ auth_payload).length := by
    rw [List.length_append, hpkN]
    omega
  simp only [if_pos hple]
  rw [List.take_left' hpkN, List.drop_left' hpkN]

/-- C8: auth_key agreement.  For every responder KEM keypair, an outgoing
announcement precursor toward the responder's public key, finalized with any
auth payload, parses back on the responder side and yields an auth_key equal
to the sender precursor's auth_key. -/
theorem announcement_auth_key_agreement (P : Prim)
    (skB pkB r0 randomness kemRand genRand auth_payload : Bytes)
    (hgen : P.kemGen r0 = (skB, pkB)) (hlen : randomness.length = 32) :
    ∃ ipre,
      IncomingAnnouncementPrecursor.tryFromIncomingAnnouncementBytes P
          ((OutgoingAnnouncementPrecursor.new P pkB randomness kemRand
            genRand).finalize P auth_payload).1 pkB skB
        = some ipre
      ∧ ipre.auth_key
        = (OutgoingAnnouncementPrecursor.new P pkB randomness kemRand
            genRand).auth_key :=
  ⟨_, announcement_roundtrip_aux P skB pkB r0 randomness kemRand genRand
      auth_payload hgen hlen, rfl⟩

/-- Witness for announcement_auth_key_agreement at the concrete primitive
instance and concrete randomness. -/
theorem announcement_auth_key_agreement_witness :
    toyPrim.kemGen [] = ([0], [0])
    ∧ (List.replicate 32 0 : Bytes).length = 32
    ∧ ∃ ipre,
        IncomingAnnouncementPrecursor.tryFromIncomingAnnouncementBytes toyPrim
            ((OutgoingAnnouncementPrecursor.new toyPrim [0] (List.replicate 32 0)
              [] []).finalize toyPrim [1, 2]).1 [0] [0]
          = some ipre
        ∧ ipre.auth_key
          = (OutgoingAnnouncementPrecursor.new toyPrim [0] (List.replicate 32 0)
              [] []).auth_key :=
  ⟨rfl, by simp,
   announcement_auth_key_agreement toyPrim [0] [0] [] (List.replicate 32 0) [] []
     [1, 2] rfl (by simp)⟩

theorem responder_first_feed (P : Prim)
    (r0 kN skr pk_init kemRandM genRandM payload : Bytes) :
    (Agraphon.tryFeedIncomingMessage P
      { role := .responder
        self_msg_history := [HistoryItemSelf.initial P (P.kemGen r0).2]
        latest_peer_msg :=
          { our_parent_id := 0, pk_next := pk_init, mk_next := kN,
            seeker_next := skr } }
      0 (P.kemGen r0).1
      ((P.kemEncap (P.kemGen r0).2 kemRandM).1 ++
        P.cipherEncrypt
          (P.msgRootKdf kN (P.staticKdf (P.kemGen r0).2).1
            (P.kemEncap (P.kemGen r0).2 kemRandM).2
            (P.kemEncap (P.kemGen r0).2 kemRandM).1 Role.initiator).cipher_key
          (P.msgRootKdf kN (P.staticKdf (P.kemGen r0).2).1
            (P.kemEncap (P.kemGen r0).2 kemRandM).2
            (P.kemEncap (P.kemGen r0).2 kemRandM).1 Role.initiator).cipher_nonce
          ((P.kemGen genRandM).2 ++ payload ++
            (P.msgIntegrityKdf
              (P.msgRootKdf kN (P.staticKdf (P.kemGen r0).2).1
                (P.kemEncap (P.kemGen r0).2 kemRandM).2
                (P.kemEncap (P.kemGen r0).2 kemRandM).1
                Role.initiator).integrity_seed
              (P.kemGen genRandM).2 payload).integrity_key))).1
    = some payload := by
  have hctlen : (P.kemEncap (P.kemGen r0).2 kemRandM).1.length = P.ctSize :=
    P.kemEncapCtLen (P.kemGen r0).2 kemRandM
  have hpklen : (P.kemGen genRandM).2.length = P.pkSize := P.kemGenPkLen genRandM
  have hiklen :
      (P.msgIntegrityKdf
        (P.msgRootKdf kN (P.staticKdf (P.kemGen r0).2).1
          (P.kemEncap (P.kemGen r0).2 kemRandM).2
          (P.kemEncap (P.kemGen r0).2 kemRandM).1
          Role.initiator).integrity_seed
        (P.kemGen genRandM).2 payload).integrity_key.length = 32 :=
    P.msgIntegrityKeyLen _ _ _
  set mct := (P.kemEncap (P.kemGen r0).2 kemRandM).1 with hmct
  set rk := P.msgRootKdf kN (P.staticKdf (P.kemGen r0).2).1
    (P.kemEncap (P.kemGen r0).2 kemRandM).2 mct Role.initiator with hrk
  set pkN := (P.kemGen genRandM).2 with hpkN2
  set ik := (P.msgIntegrityKdf rk.integrity_seed pkN payload).integrity_key
    with hik
  set contentP : Bytes := pkN ++ payload ++ ik with hcontentP
  set mcc := P.cipherEncrypt rk.cipher_key rk.cipher_nonce contentP with hmcc
  have hlook : Agraphon.getSelfMessageById
      { role := .responder
        self_msg_history := [HistoryItemSelf.initial P (P.kemGen r0).2]
        latest_peer_msg :=
          { our_parent_id := 0, pk_next := pk_init, mk_next := kN,
            seeker_next := skr } } 0
      = some (HistoryItemSelf.initial P (P.kemGen r0).2) := rfl
  have hdec : P.kemDecap (P.kemGen r0).1 mct
      = (P.kemEncap (P.kemGen r0).2 kemRandM).2 := P.kemCorrect r0 kemRandM
  have hdecrypt : P.cipherDecrypt rk.cipher_key rk.cipher_nonce mcc = contentP :=
    P.cipherRoundtrip rk.cipher_key rk.cipher_nonce contentP
  have hclen : contentP.length = P.pkSize + payload.length + 32 := by
    rw [hcontentP]
    simp only [List.length_append, hpklen, hik ▸ hiklen]
  have hmsglen : P.ctSize ≤ (mct ++ mcc).length := by
    simp only [List.length_append, hctlen]
    omega
  have hassoc : contentP = pkN ++ (payload ++ ik) := by
    rw [hcontentP, List.append_assoc]
  have hpk_piece : contentP.take P.pkSize = pkN := by
    rw [hassoc, List.take_left' hpklen]
  have hpplen : (pkN ++ payload).length = contentP.length - 32 := by
    simp only [List.length_append, hpklen]
    omega
  have htake2 : contentP.take (contentP.length - 32) = pkN ++ payload := by
    rw [hcontentP, List.take_left' hpplen]
  have hdrop2 : contentP.drop (contentP.length - 32) = ik := by
    rw [hcontentP, List.drop_left' hpplen]
  have hpayload : (contentP.take (contentP.length - 32)).drop P.pkSize
      = payload := by
    rw [htake2, List.drop_left' hpklen]
  unfold Agraphon.tryFeedIncomingMessage
  simp only [hlook]
  rw [if_pos hmsglen]
  simp only [HistoryItemSelf.initial, List.take_left' hctlen,
    List.drop_left' hctlen, Role.opposite]
  rw [hdec, ← hrk, hdecrypt]
  rw [if_pos (by omega)]
  rw [if_pos (by omega)]
  rw [if_pos (by omega)]
  rw [hpk_piece, hpayload, hdrop2, ← hik]
  rw [if_pos rfl]

/-- C2: message round-trip.  Build the initiator session from an outgoing
announcement toward the responder's static public key and the responder
session from the parsed and finalized announcement; then the initiator's
first send_outgoing_message output, fed to the responder's
try_feed_incoming_message with the matching parent id 0 and the responder's
static secret key, returns exactly the sent payload (any payload, the empty
one included). -/
theorem agraphon_message_roundtrip (P : Prim)
    (skB pkB r0 randomness kemRandA genRandA auth_payload pk_init kemRandM
      genRandM payload : Bytes)
    (hgen : P.kemGen r0 = (skB, pkB)) (hlen : randomness.length = 32) :
    ∃ ipre inc stB msg stA',
      IncomingAnnouncementPrecursor.tryFromIncomingAnnouncementBytes P
          ((OutgoingAnnouncementPrecursor.new P pkB randomness kemRandA
            genRandA).finalize P auth_payload).1 pkB skB = some ipre
      ∧ ipre.finalize pk_init = some inc
      ∧ Agraphon.tryFromIncomingAnnouncement P inc pkB = some stB
      ∧ Agraphon.sendOutgoingMessage P
          (Agraphon.fromOutgoingAnnouncement P
            ((OutgoingAnnouncementPrecursor.new P pkB randomness kemRandA
              genRandA).finalize P auth_payload).2 pkB)
          payload kemRandM genRandM = some (msg, stA')
      ∧ (Agraphon.tryFeedIncomingMessage P stB 0 skB msg).1 = some payload := by
  have hsk : skB = (P.kemGen r0).1 := by rw [hgen]
  have hpk : pkB = (P.kemGen r0).2 := by rw [hgen]
  subst hsk
  subst hpk
  refine ⟨{ pk_next := (P.kemGen genRandA).2
            auth_payload := auth_payload
            seeker_next := (P.annRootKdf randomness
              (P.kemEncap (P.kemGen r0).2 kemRandA).2
              (P.kemEncap (P.kemGen r0).2 kemRandA).1
              (P.kemGen r0).2).seeker_next
            k_next := (P.annRootKdf randomness
              (P.kemEncap (P.kemGen r0).2 kemRandA).2
              (P.kemEncap (P.kemGen r0).2 kemRandA).1
              (P.kemGen r0).2).k_next
            auth_key := P.annAuthKdf (P.annRootKdf randomness
              (P.kemEncap (P.kemGen r0).2 kemRandA).2
              (P.kemEncap (P.kemGen r0).2 kemRandA).1
              (P.kemGen r0).2).auth_pre_key (P.kemGen genRandA).2
            id := (P.annRootKdf randomness
              (P.kemEncap (P.kemGen r0).2 kemRandA).2
              (P.kemEncap (P.kemGen r0).2 kemRandA).1
              (P.kemGen r0).2).id },
          _,
          { role := .responder
            self_msg_history := [HistoryItemSelf.initial P (P.kemGen r0).2]
            latest_peer_msg :=
              { our_parent_id := 0
                pk_next := pk_init
                mk_next := (P.annRootKdf randomness
                  (P.kemEncap (P.kemGen r0).2 kemRandA).2
                  (P.kemEncap (P.kemGen r0).2 kemRandA).1
                  (P.kemGen r0).2).k_next
                seeker_next := (P.annRootKdf randomness
                  (P.kemEncap (P.kemGen r0).2 kemRandA).2
                  (P.kemEncap (P.kemGen r0).2 kemRandA).1
                  (P.kemGen r0).2).seeker_next } },
          ((P.kemEncap (P.kemGen r0).2 kemRandM).1 ++
            P.cipherEncrypt
              (P.msgRootKdf (P.annRootKdf randomness
                  (P.kemEncap (P.kemGen r0).2 kemRandA).2
                  (P.kemEncap (P.kemGen r0).2 kemRandA).1
                  (P.kemGen r0).2).k_next
                (P.staticKdf (P.kemGen r0).2).1
                (P.kemEncap (P.kemGen r0).2 kemRandM).2
                (P.kemEncap (P.kemGen r0).2 kemRandM).1
                Role.initiator).cipher_key
              (P.msgRootKdf (P.annRootKdf randomness
                  (P.kemEncap (P.kemGen r0).2 kemRandA).2
                  (P.kemEncap (P.kemGen r0).2 kemRandA).1
                  (P.kemGen r0).2).k_next
                (P.staticKdf (P.kemGen r0).2).1
                (P.kemEncap (P.kemGen r0).2 kemRandM).2
                (P.kemEncap (P.kemGen r0).2 kemRandM).1
                Role.initiator).cipher_nonce
              ((P.kemGen genRandM).2 ++ payload ++
                (P.msgIntegrityKdf
                  (P.msgRootKdf (P.annRootKdf randomness
                      (P.kemEncap (P.kemGen r0).2 kemRandA).2
                      (P.kemEncap (P.kemGen r0).2 kemRandA).1
                      (P.kemGen r0).2).k_next
                    (P.staticKdf (P.kemGen r0).2).1
                    (P.kemEncap (P.kemGen r0).2 kemRandM).2
                    (P.kemEncap (P.kemGen r0).2 kemRandM).1
                    Role.initiator).integrity_seed
                  (P.kemGen genRandM).2 payload).integrity_key)),
          _, ?_, rfl, rfl, rfl, ?_⟩
  · exact announcement_roundtrip_aux P (P.kemGen r0).1 (P.kemGen r0).2 r0
      randomness kemRandA genRandA auth_payload rfl hlen
  · exact responder_first_feed P r0
      (P.annRootKdf randomness
        (P.kemEncap (P.kemGen r0).2 kemRandA).2
        (P.kemEncap (P.kemGen r0).2 kemRandA).1
        (P.kemGen r0).2).k_next
      (P.annRootKdf randomness
        (P.kemEncap (P.kemGen r0).2 kemRandA).2
        (P.kemEncap (P.kemGen r0).2 kemRandA).1
        (P.kemGen r0).2).seeker_next
      pk_init kemRandM genRandM payload

/-- Witness for agraphon_message_roundtrip at the concrete primitive
instance with a concrete nonempty payload. -/
theorem agraphon_message_roundtrip_witness :
    toyPrim.kemGen [] = ([0], [0])
    ∧ (List.replicate 32 0 : Bytes).length = 32
    ∧ ∃ ipre inc stB msg stA',
      IncomingAnnouncementPrecursor.tryFromIncomingAnnouncementBytes toyPrim
          ((OutgoingAnnouncementPrecursor.new toyPrim [0] (List.replicate 32 0)
            [] []).finalize toyPrim [9]).1 [0] [0] = some ipre
      ∧ ipre.finalize [8] = some inc
      ∧ Agraphon.tryFromIncomingAnnouncement toyPrim inc [0] = some stB
      ∧ Agraphon.sendOutgoingMessage toyPrim
          (Agraphon.fromOutgoingAnnouncement toyPrim
            ((OutgoingAnnouncementPrecursor.new toyPrim [0] (List.replicate 32 0)
              [] []).finalize toyPrim [9]).2 [0])
          [1, 2] [] [] = some (msg, stA')
      ∧ (Agraphon.tryFeedIncomingMessage toyPrim stB 0 [0] msg).1
          = some [1, 2] :=
  ⟨rfl, by simp,
   agraphon_message_roundtrip toyPrim [0] [0] [] (List.replicate 32 0) [] []
     [9] [8] [] [] [1, 2] rfl (by simp)⟩

/-- C6: saturation refusal.  send_message returns absence exactly when the
peer has no active session or the session lag has reached
max_session_lag_length (equality refuses); on success the returned output
comes from the session send and last_outgoing_message_timestamp is set to
the output's timestamp. -/
theorem send_message_saturation {σ ρi ρo ω : Type} (A : SessionApi σ ρi ρo ω)
    (m : SessionManager σ ρi ρo) (peer_id : Nat) (message : Bytes)
    (now : Nat) :
    ((SessionManager.sendMessage A m peer_id message now).1 = none ↔
      m.activeSession peer_id = none
      ∨ ∃ si, m.activeSession peer_id = some si
          ∧ m.config.max_session_lag_length ≤ A.lagLength si.session)
    ∧ ∀ w m', SessionManager.sendMessage A m peer_id message now = (some w, m') →
        ∃ si si', m.activeSession peer_id = some si
          ∧ w = (A.sendOutgoingMessage si.session message now).1
          ∧ m'.activeSession peer_id = some si'
          ∧ si'.last_outgoing_message_timestamp = A.outputTimestamp w := by
  unfold SessionManager.sendMessage SessionManager.activeSession
  cases hp : m.peers peer_id with
  | none =>
    refine ⟨by simp, ?_⟩
    intro w m' hw
    exact absurd hw (by simp)
  | some pi =>
    simp only [Option.bind]
    cases ha : pi.active_session with
    | none =>
      simp only [ha]
      exact ⟨by simp, fun w m' hw => absurd hw (by simp)⟩
    | some si =>
      simp only [ha]
      by_cases hlag : m.config.max_session_lag_length ≤ A.lagLength si.session
      · rw [if_pos hlag]
        refine ⟨⟨fun _ => Or.inr ⟨si, rfl, hlag⟩, fun _ => rfl⟩, ?_⟩
        intro w m' hw
        exact absurd hw (by simp)
      · rw [if_neg hlag]
        refine ⟨⟨fun h => absurd h (by simp), ?_⟩, ?_⟩
        · rintro (h | ⟨si', hsi', hle⟩)
          · exact absurd h (by simp)
          · injection hsi' with hsi'
            rw [← hsi'] at hle
            exact absurd hle hlag
        · intro w m' hw
          simp only [Prod.mk.injEq, Option.some.injEq] at hw
          obtain ⟨hw1, hw2⟩ := hw
          subst hw2
          refine ⟨si,
            { session := (A.sendOutgoingMessage si.session message now).2
              last_incoming_message_timestamp :=
                si.last_incoming_message_timestamp
              last_outgoing_message_timestamp :=
                A.outputTimestamp (A.sendOutgoingMessage si.session message now).1 },
            rfl, hw1.symm, ?_, ?_⟩
          · simp only [Function.update_same, Option.bind]
          · simp only []
            rw [hw1]

/-- Concrete instantiation of the Session interface for evaluation: session
state is the lag count, requests are their timestamps, send output is its
timestamp. -/
def toySessionApi : SessionApi Nat Nat Nat Nat where
  lagLength := fun s => s
  sendOutgoingMessage := fun s _ now => (now + s, s + 1)
  outputTimestamp := fun w => w
  tryParseIncomingInitiationRequest := fun b _ _ => b.head?
  incomingTimestampMillis := fun r => r
  incomingPeerId := fun _ => 0
  outgoingTimestampMillis := fun r => r
  fromInitiationRequestPair := fun _ _ => 0

/-- Concrete configuration used with the toy manager. -/
def toyConfig : SessionManagerConfig where
  max_incoming_announcement_age_millis := 40
  max_incoming_announcement_future_millis := 5
  max_incoming_message_age_millis := 7
  max_incoming_message_future_millis := 7
  max_session_inactivity_millis := 1000
  keep_alive_interval_millis := 100
  max_session_lag_length := 3

/-- Concrete manager with one active session at peer 0. -/
def toyManager : SessionManager Nat Nat Nat where
  config := toyConfig
  peers := fun i =>
    if i = 0 then
      some { active_session := some
               { session := 1
                 last_incoming_message_timestamp := 10
                 last_outgoing_message_timestamp := 20 }
             latest_incoming_init_request := none
             latest_outgoing_init_request := none }
    else none

/-- Witness for send_message_saturation: a concrete non-saturated send
produces output and stamps the new last_outgoing_message_timestamp. -/
theorem send_message_saturation_witness :
    ∃ si si', toyManager.activeSession 0 = some si
      ∧ (51 : Nat) = (toySessionApi.sendOutgoingMessage si.session [] 50).1
      ∧ ((SessionManager.sendMessage toySessionApi toyManager 0 [] 50).2).activeSession 0
          = some si'
      ∧ si'.last_outgoing_message_timestamp = toySessionApi.outputTimestamp 51 :=
  (send_message_saturation toySessionApi toyManager 0 [] 50).2 51
    (SessionManager.sendMessage toySessionApi toyManager 0 [] 50).2 rfl

/-- Concrete manager with no peer entries at all. -/
def emptyManager : SessionManager Nat Nat Nat where
  config := toyConfig
  peers := fun _ => none

/-- C7 counterexample: with now = 100 and a 40 ms age window, an
announcement whose embedded timestamp is exactly now - max_age = 60 is
ACCEPTED by feed_incoming_announcement (the peer entry is created and the
request stored), contradicting the claim that the boundary timestamp is
rejected with the manager unchanged; the code only rejects timestamps
strictly below now - max_age. -/
theorem announcement_age_boundary_counterexample :
    toySessionApi.tryParseIncomingInitiationRequest [60] [] [] = some 60
    ∧ toySessionApi.incomingTimestampMillis 60
        = 100 - toyConfig.max_incoming_announcement_age_millis
    ∧ emptyManager.peers 0 = none
    ∧ (SessionManager.feedIncomingAnnouncement toySessionApi emptyManager
        [60] [] [] 100).peers 0
      = some { active_session := none
               latest_incoming_init_request := some 60
               latest_outgoing_init_request := none } := by
  refine ⟨rfl, rfl, rfl, ?_⟩
  simp only [SessionManager.feedIncomingAnnouncement, toySessionApi,
    emptyManager, toyConfig, Function.update]
  rfl

/-- C7 amended: announcement freshness boundary as the code implements it.
With all other admission conditions holding (parse succeeds, no prior entry
for the peer), an incoming announcement whose embedded timestamp equals
now - max_incoming_announcement_age_millis is accepted and stored, while one
whose timestamp is strictly below now - max_incoming_announcement_age_millis
(in particular the value now - max_age - 1 when it exists) is rejected with
the manager state exactly unchanged. -/
theorem announcement_age_boundary_amended {σ ρi ρo ω : Type}
    (A : SessionApi σ ρi ρo ω) (m : SessionManager σ ρi ρo)
    (announcement_bytes our_pk our_sk : Bytes) (now : Nat) (req : ρi)
    (hparse : A.tryParseIncomingInitiationRequest announcement_bytes our_pk
      our_sk = some req)
    (hpeer : m.peers (A.incomingPeerId req) = none) :
    (A.incomingTimestampMillis req
        = now - m.config.max_incoming_announcement_age_millis →
      (SessionManager.feedIncomingAnnouncement A m announcement_bytes our_pk
        our_sk now).peers (A.incomingPeerId req)
      = some { active_session := none
               latest_incoming_init_request := some req
               latest_outgoing_init_request := none })
    ∧ (A.incomingTimestampMillis req
        < now - m.config.max_incoming_announcement_age_millis →
      SessionManager.feedIncomingAnnouncement A m announcement_bytes our_pk
        our_sk now = m) := by
  unfold SessionManager.feedIncomingAnnouncement
  rw [hparse]
  simp only []
  constructor
  · intro hts
    rw [if_neg (by omega)]
    rw [if_neg (by omega)]
    simp only [hpeer]
    rw [if_neg (by simp)]
    simp only [hpeer, Option.getD, Function.update_same]
    rfl
  · intro hts
    rw [if_pos hts]

/-- Witness for announcement_age_boundary_amended at the concrete manager
with now = 100 and a 40 ms window. -/
theorem announcement_age_boundary_amended_witness :
    toySessionApi.tryParseIncomingInitiationRequest [60] [] [] = some 60
    ∧ emptyManager.peers (toySessionApi.incomingPeerId 60) = none
    ∧ ((toySessionApi.incomingTimestampMillis 60
          = 100 - emptyManager.config.max_incoming_announcement_age_millis →
        (SessionManager.feedIncomingAnnouncement toySessionApi emptyManager
          [60] [] [] 100).peers (toySessionApi.incomingPeerId 60)
        = some { active_session := none
                 latest_incoming_init_request := some 60
                 latest_outgoing_init_request := none })
      ∧ (toySessionApi.incomingTimestampMillis 60
          < 100 - emptyManager.config.max_incoming_announcement_age_millis →
        SessionManager.feedIncomingAnnouncement toySessionApi emptyManager
          [60] [] [] 100 = emptyManager)) :=
  ⟨rfl, rfl,
   announcement_age_boundary_amended toySessionApi emptyManager [60] [] [] 100
     60 rfl rfl⟩
